import Mathlib

/-!
Shallow embedding of the Movie Shelf application (src/App.py) in Lean 4.

The Python module is a Streamlit app over a per-user SQLite database with
three tables (movies, lists, list_items), a poster cache directory, a
zip-based backup/restore pair, and two HTTP metadata lookups (UPCMDB and
OMDb).  The embedding models:

* the SQLite state as explicit Lean structures (`Movie`, `MList`, `LItem`,
  `DB`), with `ORDER BY` clauses rendered as a comparison sort (`sqlSort`)
  over boolean comparators that mirror SQLite's BINARY and NOCASE
  collations;
* Python string operations (`str.strip`, `int(...)`) as executable
  functions (`pyStrip`, `pyInt?`);
* JSON payloads as an inductive `Json` with Python truthiness (`pyTruthy`),
  `dict.get` (`jget`/`jgetD`), `or`-chaining (`pyOr`) and `str()` (`pyStr`);
* the network as explicit oracles passed to the lookup functions;
* the filesystem state touched by backup restore as a structure `FS`.

Notes on fidelity:
* Python's `sqlite3` module does not execute `PRAGMA foreign_keys=ON`, so
  the `ON DELETE CASCADE` clauses declared in `init_db` are inert; the
  embedding of `delete_movie` therefore removes only the movies row.
* The `UNIQUE` constraint on `lists.name` uses SQLite's default BINARY
  collation, hence is case-sensitive; only the `ORDER BY` in `get_lists`
  uses NOCASE.
* SQLite `LIKE` wildcard metacharacters inside the search query are not
  modelled (no claim exercises the search filter).
* Timestamps are modelled as an abstract `Nat` clock passed by the caller;
  `datetime(created_at)` ordering becomes `Nat` ordering.
* SQLite's dynamic typing for mismatched value types in `UPDATE`, and
  `NOT NULL` violations raised by updating a title to NULL, are out of
  scope; `update_movie` applies only type-correct recognized fields.
-/

/-- Characters stripped by Python's `str.strip()` (ASCII whitespace; the
rarely relevant Unicode whitespace cases are not modelled). -/
def isPySpace (c : Char) : Bool :=
  c == ' ' || c == '\t' || c == '\n' || c == '\r' || c == '\x0b' || c == '\x0c'

/-- Python `s.strip()`. -/
def pyStrip (s : String) : String :=
  String.mk (((s.data.dropWhile isPySpace).reverse.dropWhile isPySpace).reverse)

/-- Valid continuation of a Python integer literal body: after a leading
digit, digits optionally separated by single underscores. -/
def pyDigitsRest : List Char → Bool
  | [] => true
  | '_' :: cs =>
    match cs with
    | c :: cs' => c.isDigit && pyDigitsRest cs'
    | [] => false
  | c :: cs => c.isDigit && pyDigitsRest cs

/-- Valid Python integer literal body (nonempty, starts with a digit,
single underscores allowed between digits). -/
def pyDigitsOk : List Char → Bool
  | [] => false
  | c :: cs => c.isDigit && pyDigitsRest cs

/-- Numeric value of a digit/underscore sequence (underscores skipped). -/
def pyDigitsVal (l : List Char) : Nat :=
  (l.filter Char.isDigit).foldl (fun n c => 10 * n + (c.toNat - 48)) 0

/-- Python `int(s)`: strips whitespace, accepts an optional sign, digits
with single underscores between digits; `none` when `int` would raise. -/
def pyInt? (s : String) : Option Int :=
  match (pyStrip s).data with
  | '+' :: rest => if pyDigitsOk rest then some (pyDigitsVal rest : Int) else none
  | '-' :: rest => if pyDigitsOk rest then some (-(pyDigitsVal rest : Int)) else none
  | l => if pyDigitsOk l then some (pyDigitsVal l : Int) else none

/-- JSON values as decoded by `requests.Response.json()`.  `null` also
stands for Python `None` results of `dict.get`. -/
inductive Json where
  | null
  | str (s : String)
  | num (n : Int)
  | bool (b : Bool)
  | obj (fields : List (String × Json))
  | arr (elems : List Json)

/-- Python truthiness of a JSON value. -/
def pyTruthy : Json → Bool
  | .null => false
  | .str s => s ≠ ""
  | .num n => n ≠ 0
  | .bool b => b
  | .obj fs => !fs.isEmpty
  | .arr es => !es.isEmpty

/-- Python `a or b` over JSON values. -/
def pyOr (a b : Json) : Json := if pyTruthy a then a else b

/-- Python `d.get(k, default)` (returns the stored value even if it is
null; the default only applies to a missing key or a non-dict receiver). -/
def jgetD (j : Json) (k : String) (d : Json) : Json :=
  match j with
  | .obj fs => match fs.find? (fun f => f.1 == k) with
    | some f => f.2
    | none => d
  | _ => d

/-- Python `d.get(k)` (missing key gives `None`). -/
def jget (j : Json) (k : String) : Json := jgetD j k .null

/-- Python `str(v)` for JSON values.  `str` of a dict or list begins with
a bracketing character, which is all later consumers (integer parsing)
observe, so the element rendering is abbreviated. -/
def pyStr : Json → String
  | .null => "None"
  | .str s => s
  | .num n => toString n
  | .bool b => if b then "True" else "False"
  | .obj _ => "\x7b...\x7d"
  | .arr _ => "[...]"

/-- Whether a JSON value equals the Python string `"True"` (the
`data.get("Response") != "True"` comparison). -/
def jsonIsTrueStr : Json → Bool
  | .str s => s == "True"
  | _ => false

/-- SQLite NOCASE folding: ASCII `A`–`Z` to lowercase, all else kept. -/
def asciiLower (c : Char) : Char :=
  if 'A' ≤ c ∧ c ≤ 'Z' then Char.ofNat (c.toNat + 32) else c

/-- Case-folded character list of a string (the NOCASE sort key). -/
def nocaseKey (s : String) : List Char := s.data.map asciiLower

/-- Lexicographic `≤` on character lists by code point, matching SQLite's
memcmp order on UTF-8 bytes. -/
def lexLe : List Char → List Char → Bool
  | [], _ => true
  | _ :: _, [] => false
  | a :: as, b :: bs =>
    decide (a.toNat < b.toNat) || (a.toNat == b.toNat && lexLe as bs)

/-- Whether `pat` starts the list `txt`. -/
def leadsWith : List Char → List Char → Bool
  | [], _ => true
  | _ :: _, [] => false
  | a :: as, b :: bs => a == b && leadsWith as bs

/-- Whether `pat` occurs contiguously inside `txt`. -/
def containsSeq (pat : List Char) : List Char → Bool
  | [] => leadsWith pat []
  | c :: cs => leadsWith pat (c :: cs) || containsSeq pat cs

/-- The characters before the first occurrence of `sep`: Python
`s.split(sep)[0]` for a one-character separator. -/
def splitFirstOn (sep : Char) : List Char → List Char
  | [] => []
  | c :: cs => if c == sep then [] else c :: splitFirstOn sep cs

/-- A row of the `movies` table.  `watched` keeps the stored integer. -/
structure Movie where
  id : Nat
  title : String
  year : Option Int
  plot : Option String
  poster_url : Option String
  poster_path : Option String
  format : String
  watched : Int
  location : Option String
  notes : Option String
  created_at : Nat
  updated_at : Nat
  source : Option String
  source_id : Option String
deriving DecidableEq

/-- A row of the `lists` table. -/
structure MList where
  id : Nat
  name : String
  created_at : Nat
deriving DecidableEq

/-- A row of the `list_items` table. -/
structure LItem where
  list_id : Nat
  movie_id : Nat
  position : Int
deriving DecidableEq

/-- The whole per-user SQLite database.  `nextMovieId`/`nextListId` model
the AUTOINCREMENT counters. -/
structure DB where
  movies : List Movie
  nextMovieId : Nat
  lists : List MList
  nextListId : Nat
  list_items : List LItem
deriving DecidableEq

/-- The empty database produced by `init_db` on first run. -/
def emptyDB : DB := ⟨[], 1, [], 1, []⟩

/-- Primary-key integrity invariants declared by the schema in `init_db`:
movies and lists have unique ids, and `(list_id, movie_id)` is the primary
key of `list_items`. -/
def DB.wf (db : DB) : Prop :=
  (db.movies.map (fun m => m.id)).Nodup ∧
  (db.lists.map (fun l => l.id)).Nodup ∧
  (db.list_items.map (fun li => (li.list_id, li.movie_id))).Nodup

/-- Python `(s or "").strip() or None` used by `add_movie` for the
optional text columns. -/
def stripOrNone (s : Option String) : Option String :=
  let t := pyStrip (s.getD "")
  if t = "" then none else some t

/-- `add_movie`: inserts a row with `title.strip()` and the stripped-or-
NULL optional fields; returns the new rowid.  `poster_path` stands for the
result of the `download_poster` side effect, and `now` for
CURRENT_TIMESTAMP. -/
def add_movie (db : DB) (title : String) (year : Option Int) (plot : Option String)
    (poster_url : Option String) (poster_path : Option String) (fmt : String)
    (watched : Bool) (location : Option String) (notes : Option String)
    (source : Option String) (source_id : Option String) (now : Nat) : Nat × DB :=
  let m : Movie :=
    { id := db.nextMovieId, title := pyStrip title, year := year,
      plot := stripOrNone plot, poster_url := stripOrNone poster_url,
      poster_path := poster_path, format := fmt,
      watched := if watched then 1 else 0, location := stripOrNone location,
      notes := stripOrNone notes, created_at := now, updated_at := now,
      source := source, source_id := source_id }
  (db.nextMovieId,
   { db with movies := db.movies ++ [m], nextMovieId := db.nextMovieId + 1 })

/-- Dynamic values passed as keyword arguments to `update_movie`. -/
inductive PyVal where
  | str (s : String)
  | int (n : Int)
  | null
deriving DecidableEq

/-- The columns accepted by `update_movie`. -/
def allowedFields : List String :=
  ["title", "year", "plot", "format", "watched", "location", "notes",
   "poster_url", "poster_path"]

/-- Application of one recognized `column=value` pair to a row. -/
def applyField (m : Movie) : String × PyVal → Movie
  | ("title", .str s) => { m with title := s }
  | ("year", .int n) => { m with year := some n }
  | ("year", .null) => { m with year := none }
  | ("plot", .str s) => { m with plot := some s }
  | ("plot", .null) => { m with plot := none }
  | ("format", .str s) => { m with format := s }
  | ("watched", .int n) => { m with watched := n }
  | ("location", .str s) => { m with location := some s }
  | ("location", .null) => { m with location := none }
  | ("notes", .str s) => { m with notes := some s }
  | ("notes", .null) => { m with notes := none }
  | ("poster_url", .str s) => { m with poster_url := some s }
  | ("poster_url", .null) => { m with poster_url := none }
  | ("poster_path", .str s) => { m with poster_path := some s }
  | ("poster_path", .null) => { m with poster_path := none }
  | _ => m

/-- `update_movie`: applies the recognized fields in order to the row with
the given id and refreshes `updated_at`; a no-op when no field, or no
recognized field, is supplied.  Values are stored exactly as passed (no
trimming). -/
def update_movie (db : DB) (movie_id : Nat) (fields : List (String × PyVal))
    (now : Nat) : DB :=
  if fields = [] then db
  else if fields.all (fun f => !(allowedFields.contains f.1)) then db
  else
    { db with movies := db.movies.map (fun m =>
        if m.id = movie_id then
          { (fields.filter (fun f => allowedFields.contains f.1)).foldl applyField m
            with updated_at := now }
        else m) }

/-- `delete_movie`: `DELETE FROM movies WHERE id=?`.  The connection never
runs `PRAGMA foreign_keys=ON`, so the `ON DELETE CASCADE` declared on
`list_items` is inert and membership rows are left behind. -/
def delete_movie (db : DB) (movie_id : Nat) : DB :=
  { db with movies := db.movies.filter (fun m => m.id ≠ movie_id) }

/-- An ORDER BY clause rendered as a sort by a boolean comparator.  SQLite
guarantees only consistency with the comparator (ties are returned in an
unspecified order), so any comparison sort models it; insertion sort is
used because it is structurally recursive. -/
def sqlSort {α : Type} (le : α → α → Bool) (l : List α) : List α :=
  List.insertionSort (fun a b => le a b = true) l

/-- ORDER BY title COLLATE NOCASE ASC. -/
def titleAscLe (a b : Movie) : Bool := lexLe (nocaseKey a.title) (nocaseKey b.title)

/-- ORDER BY title COLLATE NOCASE DESC. -/
def titleDescLe (a b : Movie) : Bool := lexLe (nocaseKey b.title) (nocaseKey a.title)

/-- COALESCE(year, 0). -/
def coalesceYear (m : Movie) : Int := m.year.getD 0

/-- ORDER BY COALESCE(year, 0) DESC, title COLLATE NOCASE ASC. -/
def yearDescLe (a b : Movie) : Bool :=
  decide (coalesceYear b < coalesceYear a) ||
    (coalesceYear a == coalesceYear b && titleAscLe a b)

/-- ORDER BY datetime(created_at) DESC. -/
def addedDescLe (a b : Movie) : Bool := decide (b.created_at ≤ a.created_at)

/-- The `title LIKE '%q%'` filter (ASCII case-insensitive containment). -/
def likeContains (title q : String) : Bool :=
  containsSeq (nocaseKey q) (nocaseKey title)

/-- `get_movies`: optional substring filter, then one of the four ORDER BY
clauses (default title ascending NOCASE). -/
def get_movies (db : DB) (q : String) (sort : String) : List Movie :=
  let rows := if pyStrip q == "" then db.movies
    else db.movies.filter (fun m => likeContains m.title (pyStrip q))
  let le := if sort == "year_desc" then yearDescLe
    else if sort == "added_desc" then addedDescLe
    else if sort == "title_desc" then titleDescLe
    else titleAscLe
  sqlSort le rows

/-- `get_movie`: SELECT * FROM movies WHERE id=?. -/
def get_movie (db : DB) (movie_id : Nat) : Option Movie :=
  db.movies.find? (fun m => m.id == movie_id)

/-- Storage errors surfaced by SQLite. -/
inductive DbError where
  | integrityError
deriving DecidableEq

/-- Boolean success test for `Except` results. -/
def exceptOk : Except DbError DB → Bool
  | .ok _ => true
  | .error _ => false

/-- `create_list`: INSERT INTO lists (name) VALUES (name.strip()).  The
UNIQUE constraint on `name` uses the default BINARY collation, so only an
exact (case-sensitive) duplicate of the trimmed name raises
IntegrityError; the transaction is rolled back, leaving the database
unchanged. -/
def create_list (db : DB) (name : String) (now : Nat) : Except DbError DB :=
  let n := pyStrip name
  if db.lists.any (fun l => l.name == n) then .error .integrityError
  else .ok { db with
    lists := db.lists ++ [⟨db.nextListId, n, now⟩],
    nextListId := db.nextListId + 1 }

/-- `get_lists`: SELECT * FROM lists ORDER BY name COLLATE NOCASE ASC. -/
def get_lists (db : DB) : List MList :=
  sqlSort (fun a b => lexLe (nocaseKey a.name) (nocaseKey b.name)) db.lists

/-- Positions of the memberships of one list. -/
def listPositions (db : DB) (list_id : Nat) : List Int :=
  (db.list_items.filter (fun li => li.list_id == list_id)).map (fun li => li.position)

/-- `add_to_list`: computes COALESCE(MAX(position), 0) over the list, then
INSERT OR IGNORE the membership at that value plus one. -/
def add_to_list (db : DB) (list_id movie_id : Nat) : DB :=
  let maxpos : Int := (listPositions db list_id).max?.getD 0
  if db.list_items.any (fun li => li.list_id == list_id && li.movie_id == movie_id) then
    db
  else
    { db with list_items := db.list_items ++ [⟨list_id, movie_id, maxpos + 1⟩] }

/-- `remove_from_list`: DELETE FROM list_items WHERE list_id=? AND movie_id=?. -/
def remove_from_list (db : DB) (list_id movie_id : Nat) : DB :=
  { db with list_items :=
      db.list_items.filter (fun li => !(li.list_id == list_id && li.movie_id == movie_id)) }

/-- `get_list_items`: the memberships of a list inner-joined to `movies`,
ordered by position ascending; rows whose movie id matches no movie are
dropped by the JOIN. -/
def get_list_items (db : DB) (list_id : Nat) : List (Int × Movie) :=
  let joined := (db.list_items.filter (fun li => li.list_id == list_id)).filterMap
    (fun li => (db.movies.find? (fun m => m.id == li.movie_id)).map
      (fun m => (li.position, m)))
  sqlSort (fun a b => decide (a.1 ≤ b.1)) joined

/-- One `UPDATE list_items SET position=? WHERE list_id=? AND movie_id=?`. -/
def setPosition (db : DB) (list_id movie_id : Nat) (p : Int) : DB :=
  { db with list_items := db.list_items.map (fun li =>
      if li.list_id == list_id && li.movie_id == movie_id then
        { li with position := p }
      else li) }

/-- `move_item`: finds the item's rank in the position-ordered list; for
`"up"` when not first (resp. `"down"` when not last) exchanges its
position value with the adjacent row's, via two UPDATE statements; any
other case returns without touching the database.  The wildcard match arm
is unreachable: `findIdx?` returns an index below the length. -/
def move_item (db : DB) (list_id movie_id : Nat) (direction : String) : DB :=
  let items := get_list_items db list_id
  match items.findIdx? (fun r => r.2.id == movie_id) with
  | none => db
  | some idx =>
    if direction = "up" ∧ 0 < idx then
      match items[idx]?, items[idx - 1]? with
      | some a, some b => setPosition (setPosition db list_id a.2.id b.1) list_id b.2.id a.1
      | _, _ => db
    else if direction = "down" ∧ idx < items.length - 1 then
      match items[idx]?, items[idx + 1]? with
      | some a, some b => setPosition (setPosition db list_id a.2.id b.1) list_id b.2.id a.1
      | _, _ => db
    else db

/-- Filesystem state touched by backup restore: the live store file at
DB_PATH, the live poster directory, and the `_restore_tmp` scratch
directory (`none` when the directory does not exist). -/
structure FS where
  liveDb : Option String
  posters : List (String × String)
  tmp : Option (List (String × String))
deriving DecidableEq

/-- An uploaded backup blob: either not a valid zip archive, or an archive
with named entries. -/
inductive Blob where
  | invalid
  | zip (entries : List (String × String))

/-- Exceptions escaping `restore_from_backup_zip`. -/
inductive RError where
  | badZip
  | missingDb
deriving DecidableEq

/-- `restore_from_backup_zip`: clears and recreates the scratch directory,
extracts the archive there, aborts (raising ValueError, after removing the
scratch) if `movies.db` is absent, otherwise replaces the live store file,
wipes and repopulates the poster directory from the archive's `posters/`
subtree, and removes the scratch.  There is no try/finally: when the blob
is not a valid zip, `zipfile.ZipFile` raises BadZipFile and the freshly
created scratch directory is left behind. -/
def restore_from_backup_zip (fs : FS) (blob : Blob) : Option RError × FS :=
  let fs1 := { fs with tmp := some [] }
  match blob with
  | .invalid => (some .badZip, fs1)
  | .zip entries =>
    let fs2 := { fs1 with tmp := some entries }
    match entries.find? (fun e => e.1 == "movies.db") with
    | none => (some .missingDb, { fs2 with tmp := none })
    | some dbEntry =>
      let fs3 := { fs2 with liveDb := some dbEntry.2 }
      let hasPosters := entries.any (fun e => leadsWith "posters/".data e.1.data)
      let newPosters := (entries.filter (fun e => leadsWith "posters/".data e.1.data)).map
        (fun e => (String.mk (e.1.data.drop 8), e.2))
      let fs4 := { fs3 with posters := if hasPosters then newPosters else [] }
      (none, { fs4 with tmp := none })

/-- Authentication mode of one UPCMDB request. -/
inductive Auth where
  | bearer
  | queryKey
deriving DecidableEq

/-- Outcome of one `requests.get`: a raised exception, or a response with
a status code and an optional parsed JSON body (`none` when `r.json()`
would raise). -/
inductive HResp where
  | exn (msg : String)
  | resp (status : Nat) (body : Option Json)

/-- The diagnostic recorded in `last_err` for a failed attempt (the
string formatting of the Python code is abstracted to its content). -/
inductive LastErr where
  | reqExn (msg : String)
  | badStatus (code : Nat)
  | parseFail

/-- Result of a successful UPCMDB lookup: either the raw payload when
neither a title nor an imdb id was found, or the normalized record. -/
inductive UResult where
  | raw (data : Json)
  | full (title : Json) (year : Option Int) (imdb : Json) (data : Json)

/-- Python `int(str(y)[:4])`, `None` when `int` raises. -/
def pyYear4 (y : Json) : Option Int := pyInt? (String.mk ((pyStr y).data.take 4))

/-- One iteration of the nested wrapper-key loop of `upcmdb_lookup`:
fills title/imdb via `or`-chaining and parses the nested year only while
`year is None`. -/
def wrapperStep (data : Json) (acc : Json × Option Int × Json) (ck : String) :
    Json × Option Int × Json :=
  let (title, year, imdb) := acc
  match jget data ck with
  | Json.obj cfs =>
    let c := Json.obj cfs
    let title' := pyOr title (pyOr (jget c "title") (jget c "name"))
    let imdb' := pyOr imdb (pyOr (jget c "imdb_id") (pyOr (jget c "imdb") (jget c "imdbId")))
    let y2 := pyOr (jget c "year") (jget c "release_year")
    let year' := if pyTruthy y2 && year.isNone then pyYear4 y2 else year
    (title', year', imdb')
  | _ => acc

/-- The wrapper keys probed for nested payloads. -/
def wrapperKeys : List String := ["data", "result", "item", "movie", "product"]

/-- The response-shape normalization of `upcmdb_lookup`: top-level
title/imdb/year aliases, then (only when both title and imdb are falsy)
one level of nesting under the wrapper keys; returns the raw payload when
nothing usable was found. -/
def upcmdbNormalize (data : Json) : UResult :=
  let acc :=
    match data with
    | Json.obj _ =>
      let title0 := pyOr (jget data "title") (jget data "name")
      let imdb0 := pyOr (jget data "imdb_id") (pyOr (jget data "imdb") (jget data "imdbId"))
      let y := pyOr (jget data "year") (jget data "release_year")
      let year0 := if pyTruthy y then pyYear4 y else none
      if !pyTruthy title0 && !pyTruthy imdb0 then
        wrapperKeys.foldl (wrapperStep data) (title0, year0, imdb0)
      else (title0, year0, imdb0)
    | _ => (Json.null, none, Json.null)
  if !pyTruthy acc.1 && !pyTruthy acc.2.2 then UResult.raw data
  else UResult.full acc.1 acc.2.1 acc.2.2 data

/-- The `if r.status_code != 200 ... data = r.json()` tail of one loop
iteration, applied to the response that survived the auth fallback. -/
def upcmdbFinish (st : Nat) (body : Option Json) : Option UResult × Option LastErr :=
  if st ≠ 200 then (none, some (.badStatus st))
  else
    match body with
    | none => (none, some .parseFail)
    | some j => (some (upcmdbNormalize j), none)

/-- One iteration of the candidate-path loop of `upcmdb_lookup`: a bearer
GET, a query-key retry of the same URL when the bearer GET returned 401,
exception capture, and the status/parse checks.  Also records the
requests issued, in order. -/
def upcmdb_attempt (oracle : String → Auth → HResp) (path : String) :
    Option UResult × Option LastErr × List (String × Auth) :=
  match oracle path .bearer with
  | .exn e => (none, some (.reqExn e), [(path, .bearer)])
  | .resp st body =>
    if st = 401 then
      match oracle path .queryKey with
      | .exn e => (none, some (.reqExn e), [(path, .bearer), (path, .queryKey)])
      | .resp st2 body2 =>
        let f := upcmdbFinish st2 body2
        (f.1, f.2, [(path, .bearer), (path, .queryKey)])
    else
      let f := upcmdbFinish st body
      (f.1, f.2, [(path, .bearer)])

/-- The candidate-path loop: threads `last_err`, stops at the first
successful attempt, and concatenates the request traces. -/
def upcmdb_go (oracle : String → Auth → HResp) :
    List String → Option LastErr → Option UResult × Option LastErr × List (String × Auth)
  | [], le => (none, le, [])
  | p :: rest, le =>
    match upcmdb_attempt oracle p with
    | (some v, _, tr) => (some v, le, tr)
    | (none, er, tr) =>
      let le' := match er with
        | some e => some e
        | none => le
      let r := upcmdb_go oracle rest le'
      (r.1, r.2.1, tr ++ r.2.2)

/-- The candidate endpoint paths tried for a UPC. -/
def candidate_paths (upc : String) : List String :=
  ["/api/v1/lookup/" ++ upc, "/api/v1/upc/" ++ upc, "/api/v1/code/" ++ upc,
   "/api/v1/" ++ upc]

/-- `upcmdb_lookup`: returns immediately when no API key is configured,
otherwise runs the candidate-path loop.  The triple is (result, final
last_err, request trace). -/
def upcmdb_lookup (hasKey : Bool) (oracle : String → Auth → HResp) (upc : String) :
    Option UResult × Option LastErr × List (String × Auth) :=
  if hasKey then upcmdb_go oracle (candidate_paths upc) none else (none, none, [])

/-- Modelled from the spec: whether a response is an HTTP 401 auth
rejection. -/
def specIs401 : HResp → Bool
  | .exn _ => false
  | .resp st _ => st == 401

/-- Modelled from the spec: the response that decides a candidate path —
the bearer response, except that a 401 bearer response is superseded by
the query-parameter retry. -/
def specFinalResp (oracle : String → Auth → HResp) (p : String) : HResp :=
  if specIs401 (oracle p .bearer) then oracle p .queryKey else oracle p .bearer

/-- Modelled from the spec: the requests issued for one candidate path —
bearer first, then the query-parameter retry exactly when the bearer
request was rejected with 401. -/
def specBlock (oracle : String → Auth → HResp) (p : String) : List (String × Auth) :=
  (p, Auth.bearer) :: (if specIs401 (oracle p .bearer) then [(p, Auth.queryKey)] else [])

/-- Modelled from the spec: the parseable body of a successful candidate
path (HTTP 200 with a body that parses). -/
def specSuccessBody (oracle : String → Auth → HResp) (p : String) : Option Json :=
  match specFinalResp oracle p with
  | .exn _ => none
  | .resp st body => if st = 200 then body else none

/-- Modelled from the spec: the diagnostic a failed candidate path leaves
behind. -/
def specPathErr (oracle : String → Auth → HResp) (p : String) : Option LastErr :=
  match specFinalResp oracle p with
  | .exn e => some (.reqExn e)
  | .resp st body =>
    if st ≠ 200 then some (.badStatus st)
    else match body with
      | none => some .parseFail
      | some _ => none

/-- Modelled from the spec: the full request trace — per-path blocks in
candidate order, stopping after the first successful path. -/
def specTrace (oracle : String → Auth → HResp) : List String → List (String × Auth)
  | [] => []
  | p :: rest =>
    specBlock oracle p ++
      (if (specSuccessBody oracle p).isSome then [] else specTrace oracle rest)

/-- Modelled from the spec: the lookup result — the normalization of the
first successful path's body, absent when every path fails. -/
def specResult (oracle : String → Auth → HResp) : List String → Option UResult
  | [] => none
  | p :: rest =>
    match specSuccessBody oracle p with
    | some j => some (upcmdbNormalize j)
    | none => specResult oracle rest

/-- Modelled from the spec: the last error — the diagnostic of the last
failed path before success or exhaustion. -/
def specLastErr (oracle : String → Auth → HResp) :
    List String → Option LastErr → Option LastErr
  | [], acc => acc
  | p :: rest, acc =>
    match specSuccessBody oracle p with
    | some _ => acc
    | none =>
      specLastErr oracle rest
        (match specPathErr oracle p with
         | some e => some e
         | none => acc)

/-- The record produced by `omdb_get` (MovieMeta).  Loosely-typed fields
are kept as JSON values exactly as Python would hold them. -/
structure MovieMeta where
  title : Json
  year : Option Int
  plot : Json
  poster_url : Json
  source : String
  source_id : Json

/-- `omdb_get`: fetches by imdb id; `none` when no key or empty id, when
the request or JSON parse raises, or when the payload's `Response` field
is not the string "True".  The year is `int` applied to the `Year` text
truncated at the first en dash (U+2013), `none` when `int` raises.  The
oracle returns `none` for a raised request, `some none` for an
unparseable body, and `some (some j)` for a parsed body. -/
def omdb_get (hasKey : Bool) (oracle : String → Option (Option Json))
    (imdb_id : String) : Option MovieMeta :=
  if !hasKey || imdb_id == "" then none
  else
    match oracle imdb_id with
    | none => none
    | some none => none
    | some (some data) =>
      if !jsonIsTrueStr (jget data "Response") then none
      else
        some { title := pyOr (jget data "Title") (Json.str ""),
               year := pyInt? (String.mk (splitFirstOn '–' (pyStr (jgetD data "Year" (Json.str ""))).data)),
               plot := jget data "Plot",
               poster_url := jget data "Poster",
               source := "omdb",
               source_id := jget data "imdbID" }

/-- Modelled from the spec: the year-text parse the spec describes for
`fetchById` — the leading 4-digit numeral before any non-numeric
separator, absent if unparseable. -/
def specLeadingYear4 (s : String) : Option Int :=
  let ds := s.data.takeWhile Char.isDigit
  if ds.length = 4 then some (pyDigitsVal ds : Int) else none

/-- Modelled from the spec (amended form): the year parse the code
implements — Python `int` applied to the year text truncated at the first
en dash (U+2013), absent when `int` raises. -/
def omdbYearSpec (yearText : String) : Option Int :=
  pyInt? (String.mk (splitFirstOn '–' yearText.data))

/-- The manual-entry add flow of the UI Add tab: rejects a blank or
whitespace-only title before calling `add_movie` (poster URL and path are
absent in this flow; `year` has already been turned into `None` when the
widget held 0). -/
def add_movie_manual (db : DB) (title : String) (year : Option Int) (plot : String)
    (fmt : String) (watched : Bool) (location notes : String) (now : Nat) :
    Option (Nat × DB) :=
  if pyStrip title == "" then none
  else some (add_movie db title year (some plot) none none fmt watched
    (some location) (some notes) none none now)

/-- Modelled from the spec: the position `addToList` appends at — the
current maximum position in the list plus 1, or 1 when the list is
empty. -/
def specAppendPos (db : DB) (list_id : Nat) : Int :=
  match (listPositions db list_id).max? with
  | none => 1
  | some m => m + 1

/-- Modelled from the spec: the effect of one position swap on one
membership row — the moved item takes the neighbour's position value, the
neighbour takes the moved item's, and every other membership is
untouched. -/
def swapSpecElem (list_id : Nat) (a b : Int × Movie) (li : LItem) : LItem :=
  if li.list_id = list_id ∧ li.movie_id = a.2.id then { li with position := b.1 }
  else if li.list_id = list_id ∧ li.movie_id = b.2.id then { li with position := a.1 }
  else li

/-- A movie row with the identity fields set and every optional column
absent, used by the concrete test fixtures. -/
def mkMovie (i : Nat) (t : String) (y : Option Int) (c : Nat) : Movie :=
  { id := i, title := t, year := y, plot := none, poster_url := none,
    poster_path := none, format := "Blu-ray", watched := 0, location := none,
    notes := none, created_at := c, updated_at := c, source := none,
    source_id := none }

/-- Fixture: one movie, one list, one membership. -/
def dbC1 : DB :=
  { movies := [mkMovie 1 "Alpha" none 1], nextMovieId := 2,
    lists := [⟨1, "Faves", 0⟩], nextListId := 2, list_items := [⟨1, 1, 1⟩] }

/-- Fixture: a store holding one list named "Horror". -/
def dbHorror : DB :=
  { movies := [], nextMovieId := 1, lists := [⟨1, "Horror", 0⟩], nextListId := 2,
    list_items := [] }

/-- Fixture: the store after adding one movie titled "Alpha". -/
def dbC3base : DB :=
  (add_movie emptyDB "Alpha" none none none none "Blu-ray" false none none
    none none 1).2

/-- Fixture: a live filesystem with a store file, one cached poster and no
scratch directory. -/
def fsLive : FS :=
  { liveDb := some "LIVE", posters := [("a.jpg", "x")], tmp := none }

/-- Fixture: the year-sorting example of the spec — ("Alpha", 2020),
("Beta", null), ("Gamma", 2020). -/
def dbYears : DB :=
  { movies := [mkMovie 1 "Alpha" (some 2020) 1, mkMovie 2 "Beta" none 2,
               mkMovie 3 "Gamma" (some 2020) 3],
    nextMovieId := 4, lists := [], nextListId := 1, list_items := [] }

/-- Fixture: three movies in one list at positions [1, 2, 3]. -/
def dbPositions : DB :=
  { movies := [mkMovie 1 "One" none 1, mkMovie 2 "Two" none 2, mkMovie 3 "Three" none 3],
    nextMovieId := 4, lists := [⟨1, "Queue", 0⟩], nextListId := 2,
    list_items := [⟨1, 1, 1⟩, ⟨1, 2, 2⟩, ⟨1, 3, 3⟩] }

/-- Fixture: an OMDb response whose Year field uses an ASCII hyphen range. -/
def omdbOracleHyphen : String → Option (Option Json) := fun _ =>
  some (some (Json.obj [("Response", Json.str "True"), ("Title", Json.str "Span"),
    ("Year", Json.str "1999-2005")]))

/-- Fixture: an OMDb response whose Year field uses the en-dash range OMDb
actually emits. -/
def omdbOracleDash : String → Option (Option Json) := fun _ =>
  some (some (Json.obj [("Response", Json.str "True"), ("Title", Json.str "Series"),
    ("Year", Json.str "2008–2013")]))

/-- C1: the spec says `deleteItem(id)` removes the Item and, as a cascading
effect, all its list memberships.  The schema declares `ON DELETE CASCADE`,
but the connection never runs `PRAGMA foreign_keys=ON`, so the cascade is
inert: after `delete_movie dbC1 1` the movies row is gone, the membership
row `(1, 1, 1)` is still present (dangling), and only the inner JOIN of
`get_list_items` hides the deleted item from list views. -/
theorem C1_delete_leaves_membership :
    (delete_movie dbC1 1).movies = [] ∧
    (delete_movie dbC1 1).list_items = [⟨1, 1, 1⟩] ∧
    get_list_items (delete_movie dbC1 1) 1 = [] := by
  decide

/-- C2 (counterexample): the claim says `createList("Horror")` followed by
`createList("horror")` fails the second call with DuplicateNameError and
leaves the set of lists unchanged.  The UNIQUE constraint is
case-sensitive, so the second call succeeds and appends a second list. -/
theorem C2_counterexample :
    exceptOk (create_list dbHorror "horror" 1) = true ∧
    (create_list dbHorror "horror" 1).toOption.map DB.lists =
      some [⟨1, "Horror", 0⟩, ⟨2, "horror", 1⟩] := by
  decide

/-- C2 (amended): `createList` fails with DuplicateNameError exactly when
a stored list's name equals the trimmed new name case-sensitively (the
failure leaves the store unchanged, the success appends the trimmed name);
`createList("Horror")` followed by `createList("horror")` succeeds on the
second call. -/
theorem C2_amended :
    (∀ (db : DB) (name : String) (now : Nat),
      ((∃ l ∈ db.lists, l.name = pyStrip name) →
        create_list db name now = Except.error DbError.integrityError) ∧
      ((∀ l ∈ db.lists, l.name ≠ pyStrip name) →
        create_list db name now = Except.ok
          { db with
            lists := db.lists ++ [⟨db.nextListId, pyStrip name, now⟩],
            nextListId := db.nextListId + 1 })) ∧
    (create_list emptyDB "Horror" 0).toOption.map
      (fun db1 => exceptOk (create_list db1 "horror" 1)) = some true := by
  refine ⟨fun db name now => ⟨?_, ?_⟩, by decide⟩
  · rintro ⟨l, hl, hname⟩
    have hany : db.lists.any (fun l => l.name == pyStrip name) = true :=
      List.any_eq_true.mpr ⟨l, hl, by simp [hname]⟩
    simp [create_list, hany]
  · intro h
    have hany : db.lists.any (fun l => l.name == pyStrip name) = false := by
      rw [Bool.eq_false_iff]
      intro hc
      obtain ⟨l, hl, hf⟩ := List.any_eq_true.mp hc
      exact h l hl (by simpa using hf)
    simp [create_list, hany]

/-- Witness for C2's amended theorem at concrete inputs: an exact
duplicate of "Horror" is rejected, a fresh name is appended. -/
theorem C2_amended_witness :
    create_list dbHorror "Horror" 1 = Except.error DbError.integrityError ∧
    create_list dbHorror "Scifi" 1 = Except.ok
      { dbHorror with
        lists := dbHorror.lists ++ [⟨dbHorror.nextListId, pyStrip "Scifi", 1⟩],
        nextListId := dbHorror.nextListId + 1 } := by
  refine ⟨(C2_amended.1 dbHorror "Horror" 1).1 ?_, (C2_amended.1 dbHorror "Scifi" 1).2 ?_⟩
  · exact ⟨⟨1, "Horror", 0⟩, by decide, by decide⟩
  · decide

/-- C3 (counterexample): the claim says that after any sequence of add and
update operations the stored title is trimmed and non-empty.  Updating the
title of an added movie to the empty string (what the edit form submits
when the field is cleared) persists an empty title, and updating it to a
padded string persists it untrimmed: `update_movie` stores the value
verbatim. -/
theorem C3_counterexample :
    (update_movie dbC3base 1 [("title", PyVal.str "")] 2).movies.map Movie.title = [""] ∧
    (update_movie dbC3base 1 [("title", PyVal.str " x ")] 3).movies.map Movie.title = [" x "] := by
  decide

/-- C3 (amended): `add_movie` always stores the trimmed title; the manual
add flow rejects a blank or whitespace-only title before persistence and
otherwise persists the trimmed, non-empty title; but `update_movie` stores
the given title verbatim (no trimming, no blank rejection), so the
trimmed-and-non-empty invariant is not maintained across updates. -/
theorem C3_amended :
    (∀ (db : DB) (t : String) (y : Option Int) (p pu pp : Option String) (f : String)
        (w : Bool) (loc n s si : Option String) (now : Nat),
      ((add_movie db t y p pu pp f w loc n s si now).2).movies.map Movie.title =
        db.movies.map Movie.title ++ [pyStrip t]) ∧
    (∀ (db : DB) (t : String) (y : Option Int) (p f : String) (w : Bool)
        (loc n : String) (now : Nat),
      pyStrip t = "" → add_movie_manual db t y p f w loc n now = none) ∧
    (∀ (db : DB) (t : String) (y : Option Int) (p f : String) (w : Bool)
        (loc n : String) (now : Nat),
      pyStrip t ≠ "" →
        (add_movie_manual db t y p f w loc n now).map
          (fun r => r.2.movies.map Movie.title) =
          some (db.movies.map Movie.title ++ [pyStrip t])) ∧
    (∀ (db : DB) (mid : Nat) (s : String) (now : Nat),
      (update_movie db mid [("title", PyVal.str s)] now).movies =
        db.movies.map (fun m =>
          if m.id = mid then { m with title := s, updated_at := now } else m)) := by
  refine ⟨?_, ?_, ?_, ?_⟩
  · intro db t y p pu pp f w loc n s si now
    simp [add_movie]
  · intro db t y p f w loc n now h
    simp [add_movie_manual, h]
  · intro db t y p f w loc n now h
    simp [add_movie_manual, h, add_movie]
  · intro db mid s now
    rfl

/-- Witness for C3's amended theorem: a whitespace-only manual add is
rejected, a padded one stores the trimmed title, and a direct add stores
the trimmed title. -/
theorem C3_amended_witness :
    add_movie_manual emptyDB "   " none "" "Blu-ray" false "" "" 1 = none ∧
    (add_movie_manual emptyDB " Alpha " none "" "Blu-ray" false "" "" 1).map
      (fun r => r.2.movies.map Movie.title) = some ["Alpha"] ∧
    ((add_movie emptyDB " Beta " none none none none "DVD" true none none
      none none 1).2).movies.map Movie.title = ["Beta"] := by
  refine ⟨C3_amended.2.1 emptyDB "   " none "" "Blu-ray" false "" "" 1 (by decide), ?_, ?_⟩
  · exact (C3_amended.2.2.1 emptyDB " Alpha " none "" "Blu-ray" false "" "" 1
      (by decide)).trans (by decide)
  · exact (C3_amended.1 emptyDB " Beta " none none none none "DVD" true none none
      none none 1).trans (by decide)

/-- C4: importing an archive with no `movies.db` entry raises the
ValidationError and leaves the live store file and the live poster
directory exactly as they were (only the scratch directory was touched,
and it is removed). -/
theorem C4_import_missing_store (fs : FS) (entries : List (String × String))
    (h : ∀ e ∈ entries, e.1 ≠ "movies.db") :
    restore_from_backup_zip fs (Blob.zip entries) =
      (some RError.missingDb, { fs with tmp := none }) ∧
    ((restore_from_backup_zip fs (Blob.zip entries)).2).liveDb = fs.liveDb ∧
    ((restore_from_backup_zip fs (Blob.zip entries)).2).posters = fs.posters := by
  have hf : entries.find? (fun e => e.1 == "movies.db") = none :=
    List.find?_eq_none.mpr (fun e he => by simpa using h e he)
  refine ⟨?_, ?_, ?_⟩ <;> simp [restore_from_backup_zip, hf]

/-- Witness for C4 at a concrete live filesystem and archive. -/
theorem C4_import_missing_store_witness :
    restore_from_backup_zip fsLive (Blob.zip [("posters/a.jpg", "y")]) =
      (some RError.missingDb, { fsLive with tmp := none }) := by
  exact (C4_import_missing_store fsLive [("posters/a.jpg", "y")] (by decide)).1

/-- C5 (counterexample): the claim says the scratch extraction location is
removed on every failure path, including a blob that is not a valid
archive.  On an invalid blob `zipfile.ZipFile` raises after the scratch
directory was created and there is no try/finally, so the (empty) scratch
directory is left behind. -/
theorem C5_counterexample :
    (restore_from_backup_zip fsLive Blob.invalid).2.tmp = some [] ∧
    (restore_from_backup_zip fsLive Blob.invalid).2.tmp ≠ none ∧
    (restore_from_backup_zip fsLive Blob.invalid).1 = some RError.badZip := by
  decide

/-- C5 (amended): for every valid archive the scratch location is removed
before returning, on the success path and on the missing-store-file
failure path; only the invalid-archive path leaves the freshly emptied
scratch directory behind (it is cleared again at the start of the next
restore). -/
theorem C5_amended (fs : FS) (entries : List (String × String)) :
    ((restore_from_backup_zip fs (Blob.zip entries)).2).tmp = none := by
  cases hf : entries.find? (fun e => e.1 == "movies.db") <;>
    simp [restore_from_backup_zip, hf]

/-- C8: `add_to_list` is idempotent — an existing membership leaves the
database unchanged — and otherwise appends the membership at the list's
current maximum position plus 1 (position 1 when the list is empty),
touching nothing else. -/
theorem C8_addToList (db : DB) (list_id movie_id : Nat) :
    ((∃ li ∈ db.list_items, li.list_id = list_id ∧ li.movie_id = movie_id) →
      add_to_list db list_id movie_id = db) ∧
    ((∀ li ∈ db.list_items, ¬(li.list_id = list_id ∧ li.movie_id = movie_id)) →
      add_to_list db list_id movie_id =
        { db with list_items :=
            db.list_items ++ [⟨list_id, movie_id, specAppendPos db list_id⟩] }) := by
  constructor
  · rintro ⟨li, hmem, h1, h2⟩
    have hany : db.list_items.any
        (fun li => li.list_id == list_id && li.movie_id == movie_id) = true :=
      List.any_eq_true.mpr ⟨li, hmem, by simp [h1, h2]⟩
    simp [add_to_list, hany]
  · intro h
    have hany : db.list_items.any
        (fun li => li.list_id == list_id && li.movie_id == movie_id) = false := by
      rw [Bool.eq_false_iff]
      intro hc
      obtain ⟨li, hl, hf⟩ := List.any_eq_true.mp hc
      exact h li hl (by simpa using hf)
    have hpos : (listPositions db list_id).max?.getD 0 + 1 = specAppendPos db list_id := by
      cases hmax : (listPositions db list_id).max? <;> simp [specAppendPos, hmax]
    simp [add_to_list, hany, hpos]

/-- Witness for C8 at the three-item fixture: re-adding member 2 is a
no-op; adding fresh member 9 appends at position max+1 = 4. -/
theorem C8_addToList_witness :
    add_to_list dbPositions 1 2 = dbPositions ∧
    add_to_list dbPositions 1 9 =
      { dbPositions with list_items :=
          dbPositions.list_items ++ [⟨1, 9, specAppendPos dbPositions 1⟩] } := by
  exact ⟨(C8_addToList dbPositions 1 2).1 (by decide),
         (C8_addToList dbPositions 1 9).2 (by decide)⟩

/-- C10 (counterexample): the claim says the year is parsed as the leading
4-digit numeral of the provider's year text before any non-numeric
separator.  For the year text "1999-2005" (ASCII hyphen) the code's
`int(text.split("–")[0])` — splitting only on the en dash — raises and the
year is absent, while the claimed parse yields 1999. -/
theorem C10_counterexample :
    (omdb_get true omdbOracleHyphen "tt0000001").map MovieMeta.year = some none ∧
    specLeadingYear4 "1999-2005" = some 1999 ∧
    (omdb_get true omdbOracleHyphen "tt0000001").map MovieMeta.year ≠
      some (specLeadingYear4 "1999-2005") := by
  decide

/-- C10 (amended): for every provider response that parses and reports
Response "True", `omdb_get` returns a record whose year is Python `int`
applied to the Year text truncated at the first en dash (U+2013), absent
when that prefix is not a valid integer; separators other than the en dash
are not handled and the numeral is not limited to 4 digits. -/
theorem C10_amended (oracle : String → Option (Option Json)) (imdb_id : String)
    (data : Json) (hid : imdb_id ≠ "") (hor : oracle imdb_id = some (some data))
    (hresp : jsonIsTrueStr (jget data "Response") = true) :
    (omdb_get true oracle imdb_id).map MovieMeta.year =
      some (omdbYearSpec (pyStr (jgetD data "Year" (Json.str "")))) ∧
    (omdb_get true oracle imdb_id).isSome = true := by
  constructor <;> simp [omdb_get, hor, hresp, hid, omdbYearSpec]

/-- Witness for C10's amended theorem on the en-dash range "2008–2013",
which parses to year 2008. -/
theorem C10_amended_witness :
    (omdb_get true omdbOracleDash "tt1").map MovieMeta.year =
      some (omdbYearSpec "2008–2013") ∧
    (omdb_get true omdbOracleDash "tt1").map MovieMeta.year = some (some 2008) := by
  have h := C10_amended omdbOracleDash "tt1"
    (Json.obj [("Response", Json.str "True"), ("Title", Json.str "Series"),
      ("Year", Json.str "2008–2013")]) (by decide) rfl (by decide)
  exact ⟨h.1.trans (by decide), h.1.trans (by decide)⟩

/-- Totality of the lexicographic character-list order. -/
theorem lexLe_total (l m : List Char) : lexLe l m = true ∨ lexLe m l = true := by
  induction l generalizing m with
  | nil => left; rfl
  | cons a as ih =>
    cases m with
    | nil => right; rfl
    | cons b bs =>
      simp only [lexLe, Bool.or_eq_true, Bool.and_eq_true, decide_eq_true_eq, beq_iff_eq]
      rcases Nat.lt_trichotomy a.toNat b.toNat with h | h | h
      · left; left; exact h
      · rcases ih bs with h2 | h2
        · left; right; exact ⟨h, h2⟩
        · right; right; exact ⟨h.symm, h2⟩
      · right; left; exact h

/-- Transitivity of the lexicographic character-list order. -/
theorem lexLe_trans (l m n : List Char) (h1 : lexLe l m = true)
    (h2 : lexLe m n = true) : lexLe l n = true := by
  induction l generalizing m n with
  | nil => rfl
  | cons a as ih =>
    cases m with
    | nil => simp [lexLe] at h1
    | cons b bs =>
      cases n with
      | nil => simp [lexLe] at h2
      | cons c cs =>
        simp only [lexLe, Bool.or_eq_true, Bool.and_eq_true, decide_eq_true_eq,
          beq_iff_eq] at h1 h2 ⊢
        rcases h1 with h1 | ⟨e1, r1⟩ <;> rcases h2 with h2 | ⟨e2, r2⟩
        · left; omega
        · left; omega
        · left; omega
        · right; exact ⟨by omega, ih bs cs r1 r2⟩

/-- Totality of the year-descending comparator. -/
theorem yearDescLe_total (a b : Movie) : yearDescLe a b = true ∨ yearDescLe b a = true := by
  simp only [yearDescLe, titleAscLe, Bool.or_eq_true, Bool.and_eq_true,
    decide_eq_true_eq, beq_iff_eq]
  rcases Int.lt_trichotomy (coalesceYear a) (coalesceYear b) with h | h | h
  · right; left; exact h
  · rcases lexLe_total (nocaseKey a.title) (nocaseKey b.title) with h2 | h2
    · left; right; exact ⟨h, h2⟩
    · right; right; exact ⟨h.symm, h2⟩
  · left; left; exact h

/-- Transitivity of the year-descending comparator. -/
theorem yearDescLe_trans (a b c : Movie) (h1 : yearDescLe a b = true)
    (h2 : yearDescLe b c = true) : yearDescLe a c = true := by
  simp only [yearDescLe, titleAscLe, Bool.or_eq_true, Bool.and_eq_true,
    decide_eq_true_eq, beq_iff_eq] at h1 h2 ⊢
  rcases h1 with h1 | ⟨e1, r1⟩ <;> rcases h2 with h2 | ⟨e2, r2⟩
  · left; omega
  · left; omega
  · left; omega
  · right; exact ⟨by omega, lexLe_trans _ _ _ r1 r2⟩

/-- C6: with positive stored years (the data model's "optional positive
integer"), sorting with sortKey `year_desc` returns a permutation of the
store that is ordered by the comparator COALESCE(year,0) DESC with
NOCASE-title-ascending tiebreak; consequently an item with no year never
precedes an item with a year, equal-year neighbours are in case-insensitive
title order, and the spec's example sorts to [Alpha, Gamma, Beta]. -/
theorem C6_year_desc_sort (db : DB)
    (hpos : ∀ m ∈ db.movies, 1 ≤ m.year.getD 1) :
    List.Perm (get_movies db "" "year_desc") db.movies ∧
    List.Pairwise (fun a b => yearDescLe a b = true) (get_movies db "" "year_desc") ∧
    (∀ (i j : Fin (get_movies db "" "year_desc").length), (i : Nat) < (j : Nat) →
      ((get_movies db "" "year_desc").get j).year.isSome = true →
      ((get_movies db "" "year_desc").get i).year.isSome = true) ∧
    (∀ (i j : Fin (get_movies db "" "year_desc").length), (i : Nat) < (j : Nat) →
      coalesceYear ((get_movies db "" "year_desc").get i) =
        coalesceYear ((get_movies db "" "year_desc").get j) →
      titleAscLe ((get_movies db "" "year_desc").get i)
        ((get_movies db "" "year_desc").get j) = true) ∧
    (get_movies dbYears "" "year_desc").map Movie.title = ["Alpha", "Gamma", "Beta"] := by
  have heq : get_movies db "" "year_desc" = sqlSort yearDescLe db.movies := rfl
  have hperm : List.Perm (get_movies db "" "year_desc") db.movies := by
    rw [heq]; exact List.perm_insertionSort _ _
  have hsorted : List.Sorted (fun a b => yearDescLe a b = true)
      (get_movies db "" "year_desc") := by
    rw [heq]
    haveI : IsTotal Movie (fun a b => yearDescLe a b = true) :=
      ⟨fun a b => yearDescLe_total a b⟩
    haveI : IsTrans Movie (fun a b => yearDescLe a b = true) :=
      ⟨fun a b c => yearDescLe_trans a b c⟩
    exact List.sorted_insertionSort _ _
  refine ⟨hperm, hsorted, ?_, ?_, by decide⟩
  · intro i j hij hj
    have hle := hsorted.rel_get_of_lt (a := i) (b := j) hij
    have hmem : (get_movies db "" "year_desc").get j ∈ db.movies :=
      hperm.subset (List.get_mem _ _ j.2)
    have hy : 1 ≤ coalesceYear ((get_movies db "" "year_desc").get j) := by
      cases hy2 : ((get_movies db "" "year_desc").get j).year with
      | none => rw [hy2] at hj; simp at hj
      | some y =>
        have h5 := hpos _ hmem
        rw [hy2] at h5
        simp only [coalesceYear, hy2, Option.getD_some]
        simpa using h5
    simp only [yearDescLe, Bool.or_eq_true, Bool.and_eq_true, decide_eq_true_eq,
      beq_iff_eq] at hle
    have hi : 1 ≤ coalesceYear ((get_movies db "" "year_desc").get i) := by
      rcases hle with h | ⟨e, _⟩
      · omega
      · omega
    cases hy3 : ((get_movies db "" "year_desc").get i).year with
    | none =>
      exfalso
      simp only [coalesceYear, hy3, Option.getD_none] at hi
      omega
    | some y => simp [hy3]
  · intro i j hij he
    have hle := hsorted.rel_get_of_lt (a := i) (b := j) hij
    simp only [yearDescLe, Bool.or_eq_true, Bool.and_eq_true, decide_eq_true_eq,
      beq_iff_eq] at hle
    rcases hle with h | ⟨_, h2⟩
    · omega
    · exact h2

/-- Witness for C6 at the spec's example store. -/
theorem C6_witness :
    List.Perm (get_movies dbYears "" "year_desc") dbYears.movies ∧
    (get_movies dbYears "" "year_desc").map Movie.title = ["Alpha", "Gamma", "Beta"] := by
  have h := C6_year_desc_sort dbYears (by decide)
  exact ⟨h.1, h.2.2.2.2⟩

/-- The two sequential position UPDATEs of `move_item` act on each
membership row independently: when the two targeted movie ids differ, the
composite equals the per-row swap description. -/
theorem swap_eq_map (db : DB) (list_id : Nat) (a b : Int × Movie)
    (hab : a.2.id ≠ b.2.id) :
    setPosition (setPosition db list_id a.2.id b.1) list_id b.2.id a.1 =
      { db with list_items := db.list_items.map (swapSpecElem list_id a b) } := by
  simp only [setPosition, List.map_map]
  congr 1
  apply List.map_congr_left
  intro li _
  by_cases h1 : li.list_id = list_id ∧ li.movie_id = a.2.id
  · have hc1 : (li.list_id == list_id && li.movie_id == a.2.id) = true := by
      simp [h1.1, h1.2]
    simp only [Function.comp, hc1, if_true, swapSpecElem, if_pos h1]
    have hc2 : (li.list_id == list_id && li.movie_id == b.2.id) = false := by
      simp [h1.2]
      intro
      exact fun hcon => (hab (h1.2 ▸ hcon)).elim
    simp [hc2]
  · have hc1 : (li.list_id == list_id && li.movie_id == a.2.id) = false := by
      rw [Bool.eq_false_iff]
      intro hc
      simp only [Bool.and_eq_true, beq_iff_eq] at hc
      exact h1 hc
    simp only [Function.comp, hc1, Bool.false_eq_true, if_false, swapSpecElem, if_neg h1]
    by_cases h2 : li.list_id = list_id ∧ li.movie_id = b.2.id
    · have hc2 : (li.list_id == list_id && li.movie_id == b.2.id) = true := by
        simp [h2.1, h2.2]
      simp [hc2, h2]
    · have hc2 : (li.list_id == list_id && li.movie_id == b.2.id) = false := by
        rw [Bool.eq_false_iff]
        intro hc
        simp only [Bool.and_eq_true, beq_iff_eq] at hc
        exact h2 hc
      simp [hc2, h2]

/-- The inner JOIN of `get_list_items` preserves distinctness: each joined
row's movie id equals its membership's movie id, so distinct membership
movie ids give distinct joined ids. -/
theorem joined_ids_nodup (db : DB) : ∀ (xs : List LItem),
    (xs.map (fun li => li.movie_id)).Nodup →
    ((xs.filterMap (fun li => (db.movies.find? (fun m => m.id == li.movie_id)).map
      (fun m => (li.position, m)))).map (fun r : Int × Movie => r.2.id)).Nodup := by
  intro xs
  induction xs with
  | nil => intro _; simp
  | cons x xs ih =>
    intro h
    rw [List.map_cons, List.nodup_cons] at h
    obtain ⟨hx, hxs⟩ := h
    rw [List.filterMap_cons]
    cases hfind : db.movies.find? (fun m => m.id == x.movie_id) with
    | none => exact ih hxs
    | some m =>
      have hid : m.id = x.movie_id := by
        have := List.find?_some hfind
        simpa using this
      simp only [Option.map_some', List.map_cons, List.nodup_cons]
      refine ⟨?_, ih hxs⟩
      intro hmem
      apply hx
      obtain ⟨r, hr, hrid⟩ := List.mem_map.mp hmem
      obtain ⟨li, hli, hjoin⟩ := List.mem_filterMap.mp hr
      cases hf2 : db.movies.find? (fun mm => mm.id == li.movie_id) with
      | none => rw [hf2] at hjoin; simp at hjoin
      | some m2 =>
        rw [hf2] at hjoin
        simp only [Option.map_some', Option.some_inj] at hjoin
        have hid2 : m2.id = li.movie_id := by
          have := List.find?_some hf2
          simpa using this
        refine List.mem_map.mpr ⟨li, hli, ?_⟩
        have hr2 : r.2 = m2 := by rw [← hjoin]
        rw [← hid, ← hid2, ← hr2, hrid]

/-- Under the schema's primary keys, the movie ids appearing in
`get_list_items` are pairwise distinct. -/
theorem get_list_items_ids_nodup (db : DB) (hwf : db.wf) (list_id : Nat) :
    ((get_list_items db list_id).map (fun r : Int × Movie => r.2.id)).Nodup := by
  obtain ⟨_, _, h3⟩ := hwf
  have hsub : (db.list_items.filter (fun li => li.list_id == list_id)).Sublist
      db.list_items := List.filter_sublist _
  have h3' : ((db.list_items.filter (fun li => li.list_id == list_id)).map
      (fun li => (li.list_id, li.movie_id))).Nodup := (hsub.map _).nodup h3
  have hp : (db.list_items.filter (fun li => li.list_id == list_id)).Pairwise
      (fun x y => (x.list_id, x.movie_id) ≠ (y.list_id, y.movie_id)) :=
    (List.pairwise_map).mp h3'
  have hall : ∀ x ∈ db.list_items.filter (fun li => li.list_id == list_id),
      x.list_id = list_id := by
    intro x hx
    have := (List.mem_filter.mp hx).2
    simpa using this
  have hp2 : (db.list_items.filter (fun li => li.list_id == list_id)).Pairwise
      (fun x y => x.movie_id ≠ y.movie_id) := by
    refine List.Pairwise.imp_of_mem ?_ hp
    intro x y hx hy hne heq
    exact hne (by rw [hall x hx, hall y hy, heq])
  have hm : ((db.list_items.filter (fun li => li.list_id == list_id)).map
      (fun li => li.movie_id)).Nodup := (List.pairwise_map).mpr hp2
  have hj := joined_ids_nodup db _ hm
  have hperm : List.Perm (get_list_items db list_id)
      ((db.list_items.filter (fun li => li.list_id == list_id)).filterMap
        (fun li => (db.movies.find? (fun m => m.id == li.movie_id)).map
          (fun m => (li.position, m)))) := List.perm_insertionSort _ _
  exact (hperm.map _).nodup_iff.mpr hj

/-- C7: `moveItem` with direction "up" on an item that is not first
exchanges its position value with the immediately preceding item's (in
position order), leaving every other membership row and the rest of the
database untouched; symmetrically for "down" and the immediately following
item; and it leaves the database unchanged when the item is not in the
list or is already at the boundary for the requested direction. -/
theorem C7_moveItem (db : DB) (hwf : db.wf) (list_id movie_id : Nat) :
    (((get_list_items db list_id).findIdx? (fun r => r.2.id == movie_id) = none) →
      ∀ dir, move_item db list_id movie_id dir = db) ∧
    (∀ idx, (get_list_items db list_id).findIdx? (fun r => r.2.id == movie_id) = some idx →
      ((idx = 0 → move_item db list_id movie_id "up" = db) ∧
       (idx = (get_list_items db list_id).length - 1 →
         move_item db list_id movie_id "down" = db) ∧
       (∀ a b, 0 < idx → (get_list_items db list_id)[idx]? = some a →
         (get_list_items db list_id)[idx - 1]? = some b →
         move_item db list_id movie_id "up" =
           { db with list_items := db.list_items.map (swapSpecElem list_id a b) }) ∧
       (∀ a b, idx < (get_list_items db list_id).length - 1 →
         (get_list_items db list_id)[idx]? = some a →
         (get_list_items db list_id)[idx + 1]? = some b →
         move_item db list_id movie_id "down" =
           { db with list_items := db.list_items.map (swapSpecElem list_id a b) }))) := by
  constructor
  · intro h dir
    simp [move_item, h]
  · intro idx hidx
    refine ⟨?_, ?_, ?_, ?_⟩
    · intro h0
      subst h0
      simp [move_item, hidx]
    · intro hlast
      have hnot : ¬ (idx < (get_list_items db list_id).length - 1) := by omega
      simp [move_item, hidx, hnot]
    · intro a b hpos ha hb
      have hids := get_list_items_ids_nodup db hwf list_id
      obtain ⟨hlt, hga⟩ := List.getElem?_eq_some_iff.mp ha
      obtain ⟨hlt2, hgb⟩ := List.getElem?_eq_some_iff.mp hb
      have hab : a.2.id ≠ b.2.id := by
        intro hcon
        have hia : ((get_list_items db list_id).map (fun r : Int × Movie => r.2.id)).get
            ⟨idx, by simpa using hlt⟩ = a.2.id := by
          simp [List.getElem_map, hga]
        have hib : ((get_list_items db list_id).map (fun r : Int × Movie => r.2.id)).get
            ⟨idx - 1, by simpa using hlt2⟩ = b.2.id := by
          simp [List.getElem_map, hgb]
        have := (hids.get_inj_iff (i := ⟨idx, by simpa using hlt⟩)
          (j := ⟨idx - 1, by simpa using hlt2⟩)).mp (by rw [hia, hib, hcon])
        have : idx = idx - 1 := congrArg Fin.val this
        omega
      have hmain : move_item db list_id movie_id "up" =
          setPosition (setPosition db list_id a.2.id b.1) list_id b.2.id a.1 := by
        simp [move_item, hidx, hpos, ha, hb]
      rw [hmain, swap_eq_map db list_id a b hab]
    · intro a b hlt3 ha hb
      have hids := get_list_items_ids_nodup db hwf list_id
      obtain ⟨hlt, hga⟩ := List.getElem?_eq_some_iff.mp ha
      obtain ⟨hlt2, hgb⟩ := List.getElem?_eq_some_iff.mp hb
      have hab : a.2.id ≠ b.2.id := by
        intro hcon
        have hia : ((get_list_items db list_id).map (fun r : Int × Movie => r.2.id)).get
            ⟨idx, by simpa using hlt⟩ = a.2.id := by
          simp [List.getElem_map, hga]
        have hib : ((get_list_items db list_id).map (fun r : Int × Movie => r.2.id)).get
            ⟨idx + 1, by simpa using hlt2⟩ = b.2.id := by
          simp [List.getElem_map, hgb]
        have := (hids.get_inj_iff (i := ⟨idx, by simpa using hlt⟩)
          (j := ⟨idx + 1, by simpa using hlt2⟩)).mp (by rw [hia, hib, hcon])
        have : idx = idx + 1 := congrArg Fin.val this
        omega
      have hmain : move_item db list_id movie_id "down" =
          setPosition (setPosition db list_id a.2.id b.1) list_id b.2.id a.1 := by
        simp [move_item, hidx, hlt3, ha, hb]
      rw [hmain, swap_eq_map db list_id a b hab]

/-- Witness for C7 at the fixture with positions [1, 2, 3]: moving the
middle item up swaps positions 1 and 2, boundary moves and a non-member
are no-ops. -/
theorem C7_moveItem_witness :
    move_item dbPositions 1 2 "up" =
      { dbPositions with
        list_items := dbPositions.list_items.map
          (swapSpecElem 1 (2, mkMovie 2 "Two" none 2) (1, mkMovie 1 "One" none 1)) } ∧
    move_item dbPositions 1 1 "up" = dbPositions ∧
    move_item dbPositions 1 3 "down" = dbPositions ∧
    move_item dbPositions 1 9 "up" = dbPositions := by
  refine ⟨?_, ?_, ?_, ?_⟩
  · exact ((C7_moveItem dbPositions ⟨by decide, by decide, by decide⟩ 1 2).2 1 (by decide)).2.2.1
      (2, mkMovie 2 "Two" none 2) (1, mkMovie 1 "One" none 1)
      (by decide) (by decide) (by decide)
  · exact ((C7_moveItem dbPositions ⟨by decide, by decide, by decide⟩ 1 1).2 0 (by decide)).1 rfl
  · exact ((C7_moveItem dbPositions ⟨by decide, by decide, by decide⟩ 1 3).2 2 (by decide)).2.1 (by decide)
  · exact (C7_moveItem dbPositions ⟨by decide, by decide, by decide⟩ 1 9).1 (by decide) "up"

/-- One loop iteration of `upcmdb_lookup` produces exactly the spec-side
description: the result is the normalization of the successful body, the
diagnostic is the path's error, and the requests issued are the bearer
request followed by the query-parameter retry exactly on a 401. -/
theorem upcmdb_attempt_eq (oracle : String → Auth → HResp) (p : String) :
    upcmdb_attempt oracle p =
      ((specSuccessBody oracle p).map upcmdbNormalize, specPathErr oracle p,
        specBlock oracle p) := by
  cases hb : oracle p .bearer with
  | exn e =>
    simp [upcmdb_attempt, specSuccessBody, specPathErr, specBlock, specFinalResp,
      specIs401, hb]
  | resp st body =>
    by_cases h401 : st = 401
    · subst h401
      cases hq : oracle p .queryKey with
      | exn e =>
        simp [upcmdb_attempt, upcmdbFinish, specSuccessBody, specPathErr, specBlock,
          specFinalResp, specIs401, hb, hq]
      | resp st2 body2 =>
        by_cases h200 : st2 = 200
        · subst h200
          cases body2 <;>
            simp [upcmdb_attempt, upcmdbFinish, specSuccessBody, specPathErr,
              specBlock, specFinalResp, specIs401, hb, hq]
        · simp [upcmdb_attempt, upcmdbFinish, specSuccessBody, specPathErr,
            specBlock, specFinalResp, specIs401, hb, hq, h200]
    · by_cases h200 : st = 200
      · subst h200
        cases body <;>
          simp [upcmdb_attempt, upcmdbFinish, specSuccessBody, specPathErr,
            specBlock, specFinalResp, specIs401, hb, h401]
      · simp [upcmdb_attempt, upcmdbFinish, specSuccessBody, specPathErr,
          specBlock, specFinalResp, specIs401, hb, h401, h200]

/-- The candidate-path loop equals the spec-side result, last-error and
trace functions, for every threaded diagnostic. -/
theorem upcmdb_go_eq (oracle : String → Auth → HResp) (paths : List String) :
    ∀ le, upcmdb_go oracle paths le =
      (specResult oracle paths, specLastErr oracle paths le, specTrace oracle paths) := by
  induction paths with
  | nil => intro le; rfl
  | cons p rest ih =>
    intro le
    cases hs : specSuccessBody oracle p with
    | some j =>
      simp [upcmdb_go, upcmdb_attempt_eq, hs, specResult, specLastErr, specTrace]
    | none =>
      simp [upcmdb_go, upcmdb_attempt_eq, hs, specResult, specLastErr, specTrace, ih]

/-- C9: `upcmdb_lookup` (with a configured key) issues, for each candidate
path in order, a bearer-authenticated request and then — exactly when that
request came back 401 — a query-parameter-authenticated retry of the same
path before moving on; it stops at the first attempt returning HTTP 200
with a parseable body and returns its normalization; and when every
candidate path fails it returns no result together with the last path's
error. -/
theorem C9_fetchByCode (oracle : String → Auth → HResp) (upc : String) :
    upcmdb_lookup true oracle upc =
      (specResult oracle (candidate_paths upc),
       specLastErr oracle (candidate_paths upc) none,
       specTrace oracle (candidate_paths upc)) := by
  simpa [upcmdb_lookup] using upcmdb_go_eq oracle (candidate_paths upc) none
